import Mathlib

/-!
# Verde Valley Stays — verification of the core subsystems

Shallow embedding of the Python sources of `verde-valley-stays-python`:

* `src/agent/runner.py`   — the agent tool-use loop (`run_agent`);
* `src/agent/tools.py`    — the tool registry (`TOOL_SCHEMAS`, `execute_tool`);
* `src/services/context.py` — the rolling context window
  (`save_to_context` / `trim_context` / `load_context` /
  `format_context_for_prompt`);
* `src/services/calendar.py` — `check_availability`;
* `src/ingestion/ingest.py`  — `chunk_text`;
* `src/config.py`         — `CONTEXT_MESSAGE_LIMIT`, `CALENDAR_MAP`.

External collaborators (the hosted model, Supabase, Google Calendar) appear
as explicit parameters: the model is an oracle `List Message → ModelResponse`
(the per-turn system prompt is fixed during one call of `run_agent`, so it is
absorbed into the oracle), backing tool capabilities live in a `ToolEnv`
record, and a calendar lookup lives in a `CalendarApi` record.  A Python call
that may raise is modelled as `Except String α`, the `String` being `str(e)`.
-/

namespace VerdeValley

/-! ## Data model of the model-call interface (src/agent/runner.py) -/

/-- A content block of a model response.  `text` blocks carry a `.text`
attribute; `tool_use` blocks carry `id`, `name` and `input`.  A tool input is
the arguments mapping, modelled as an association list of string fields. -/
inductive ContentBlock where
  | text (t : String)
  | tool_use (id : String) (name : String) (input : List (String × String))
deriving DecidableEq, Repr

/-- The stop reason of a model response: `end_turn` (final answer),
`tool_use`, or any other signal. -/
inductive StopReason where
  | end_turn
  | tool_use
  | other (s : String)
deriving DecidableEq, Repr

/-- A model response: a stop reason and a list of content blocks. -/
structure ModelResponse where
  stop_reason : StopReason
  content : List ContentBlock
deriving DecidableEq, Repr

/-- A tool result entry, as built in `run_agent`:
`{"type": "tool_result", "tool_use_id": block.id, "content": result}`. -/
structure ToolResult where
  tool_use_id : String
  content : String
deriving DecidableEq, Repr

/-- The content of a message on the conversation list: the initial user
string, an assistant turn holding the model's content blocks, or a user turn
holding a list of tool results. -/
inductive MessageContent where
  | str (s : String)
  | blocks (bs : List ContentBlock)
  | results (rs : List ToolResult)
deriving DecidableEq, Repr

/-- One entry of the `messages` list sent to the model. -/
structure Message where
  role : String
  content : MessageContent
deriving DecidableEq, Repr

/-- A tool call as seen by the spec: name, arguments, and the correlation
id (`call_id`, the `id` of the originating `tool_use` block). -/
structure ToolCall where
  id : String
  name : String
  input : List (String × String)
deriving DecidableEq, Repr

/-- The tool calls requested by a model response, in the order their
`tool_use` blocks appear in the content. -/
def toolCalls (content : List ContentBlock) : List ToolCall :=
  content.filterMap fun b =>
    match b with
    | .tool_use i n inp => some ⟨i, n, inp⟩
    | .text _ => none

/-- The textual segments of a response, in order: the Python code keeps
`b.text` for every block that has a `text` attribute. -/
def textSegments (content : List ContentBlock) : List String :=
  content.filterMap fun b =>
    match b with
    | .text t => some t
    | .tool_use _ _ _ => none

/-- The tool-result list built in the `tool_use` branch of `run_agent`:
one `ToolResult` per `tool_use` block, in content order, with
`tool_use_id := block.id` and `content := execute_tool block.name block.input`
(the executor is a parameter `exec`). -/
def collectToolResults (exec : String → List (String × String) → String)
    (content : List ContentBlock) : List ToolResult :=
  content.filterMap fun b =>
    match b with
    | .tool_use i n inp => some ⟨i, exec n inp⟩
    | .text _ => none

/-- `str.strip()` on a character list: drop whitespace from both ends. -/
def stripChars (l : List Char) : List Char :=
  ((l.dropWhile Char.isWhitespace).reverse.dropWhile Char.isWhitespace).reverse

/-- Python `str.strip()` with no arguments: remove leading and trailing
whitespace. -/
def pyStrip (s : String) : String := (stripChars s.toList).asString

/-- The fixed apologetic fallback string returned when the loop exits
without a final answer (src/agent/runner.py line 100). -/
def FALLBACK : String :=
  "I\x27m sorry, I had trouble processing that. Please try again."

/-- `max_iterations = 10`, the safety limit of the tool-use loop. -/
def max_iterations : Nat := 10

/-- The body of the `while iteration < max_iterations` loop of `run_agent`,
by recursion on the remaining iteration budget.  Returns the final reply
together with the number of model calls made.  The oracle stands for
`client.messages.create` applied to the (fixed) system prompt, the tool
schemas and the current message list. -/
def runAgentLoop (oracle : List Message → ModelResponse)
    (exec : String → List (String × String) → String) :
    Nat → List Message → String × Nat
  | 0, _ => (FALLBACK, 0)
  | rem + 1, messages =>
    let response := oracle messages
    match response.stop_reason with
    | .end_turn =>
        (pyStrip (String.intercalate " " (textSegments response.content)), 1)
    | .tool_use =>
        let messages' := messages ++
          [⟨"assistant", .blocks response.content⟩,
           ⟨"user", .results (collectToolResults exec response.content)⟩]
        let r := runAgentLoop oracle exec rem messages'
        (r.1, r.2 + 1)
    | .other _ => (FALLBACK, 1)

/-- `run_agent(user_message, recent_conversation)`: start from the message
list `[{"role": "user", "content": user_message}]` and loop up to
`max_iterations` times.  The second component counts model calls. -/
def run_agent (oracle : List Message → ModelResponse)
    (exec : String → List (String × String) → String)
    (user_message : String) : String × Nat :=
  runAgentLoop oracle exec max_iterations [⟨"user", .str user_message⟩]

/-! ## JSON serialization (the fragment `json.dumps` needs here)

The tool dispatcher serializes dict results with `json.dumps`, whose default
separators are `", "` and `": "`.  The dicts produced in this code have
string and boolean values; `json.dumps` escapes `"` and backslash and the
usual control characters, and leaves apostrophes alone. -/

/-- Escape one character the way Python `json.dumps` does for the characters
occurring in this code base (quote, backslash, newline, tab, carriage
return; other characters are emitted verbatim). -/
def jsonEscapeChar (c : Char) : String :=
  if c = '"' then "\\\""
  else if c = '\\' then "\\\\"
  else if c = '\n' then "\\n"
  else if c = '\t' then "\\t"
  else if c = '\r' then "\\r"
  else String.singleton c

/-- Escape a string for JSON output. -/
def jsonEscape (s : String) : String :=
  String.join (s.toList.map jsonEscapeChar)

/-- A JSON value of the shapes this code produces in dicts. -/
inductive JVal where
  | str (s : String)
  | bool (b : Bool)
deriving DecidableEq, Repr

/-- A Python dict with string keys, as an ordered association list
(Python dicts preserve insertion order). -/
abbrev JObj := List (String × JVal)

/-- Render one JSON value. -/
def jvalDump : JVal → String
  | .str s => "\"" ++ jsonEscape s ++ "\""
  | .bool b => if b then "true" else "false"

/-- `json.dumps` on a dict, with the default `", "` / `": "` separators. -/
def jsonDumps (o : JObj) : String :=
  "\x7b" ++
    String.intercalate ", "
      (o.map fun kv => "\"" ++ jsonEscape kv.1 ++ "\": " ++ jvalDump kv.2) ++
  "\x7d"

/-! ## Tool registry (src/agent/tools.py) -/

/-- The part of a `TOOL_SCHEMAS` entry the claims need: the tool name and
its declared `required` field list. -/
structure ToolSchema where
  name : String
  required : List String
deriving DecidableEq, Repr

/-- `TOOL_SCHEMAS` from src/agent/tools.py, projected to name and required
fields. -/
def TOOL_SCHEMAS : List ToolSchema :=
  [⟨"search_knowledge_base", ["query"]⟩,
   ⟨"check_availability",
     ["property_name", "check_in_date", "check_out_date"]⟩,
   ⟨"create_booking",
     ["property_name", "check_in_date", "check_out_date", "guest_name",
      "guest_email"]⟩,
   ⟨"cancel_booking", ["property_name", "guest_name", "check_in_date"]⟩]

/-- A tool input: the arguments mapping passed as `tool_input`. -/
abbrev ToolInput := List (String × String)

/-- Association-list lookup, mirroring `dict.get` / `dict[...]` access
(Python dict keys are unique; the first binding wins). -/
def lookupField (input : ToolInput) (k : String) : Option String :=
  (List.find? (fun kv => kv.1 = k) input).map Prod.snd

/-- `tool_input[k]`: a subscript lookup that raises `KeyError(k)` when the
field is absent; `str(KeyError(k))` is the key wrapped in apostrophes. -/
def pyGetItem (input : ToolInput) (k : String) : Except String String :=
  match lookupField input k with
  | some v => .ok v
  | none => .error ("\x27" ++ k ++ "\x27")

/-- `tool_input.get(k, d)`: lookup with a default, never raising. -/
def pyGetD (input : ToolInput) (k d : String) : String :=
  (lookupField input k).getD d

/-- The value bound to `result` in `execute_tool`: either a dict or a
string (only `search_knowledge_base` returns a plain string). -/
inductive ToolRet where
  | dict (d : JObj)
  | str (s : String)

/-- The backing capabilities `execute_tool` dispatches to
(`rag.search_knowledge_base` and the three `services.calendar` functions).
Each may raise, modelled by `Except String`. -/
structure ToolEnv where
  search_knowledge_base : String → Except String String
  check_availability : String → String → String → Except String JObj
  create_booking :
    String → String → String → String → String → String → Except String JObj
  cancel_booking : String → String → String → Except String JObj

/-- The `try:` body of `execute_tool`: the if/elif dispatch on the tool
name.  Field lookups and the backing call are sequenced left to right, as
Python evaluates the keyword arguments; the first raised exception aborts
the body. -/
def executeToolBody (env : ToolEnv) (tool_name : String)
    (tool_input : ToolInput) : Except String ToolRet :=
  if tool_name = "search_knowledge_base" then do
    let q ← pyGetItem tool_input "query"
    let r ← env.search_knowledge_base q
    pure (.str r)
  else if tool_name = "check_availability" then do
    let pn ← pyGetItem tool_input "property_name"
    let ci ← pyGetItem tool_input "check_in_date"
    let co ← pyGetItem tool_input "check_out_date"
    let r ← env.check_availability pn ci co
    pure (.dict r)
  else if tool_name = "create_booking" then do
    let pn ← pyGetItem tool_input "property_name"
    let ci ← pyGetItem tool_input "check_in_date"
    let co ← pyGetItem tool_input "check_out_date"
    let gn ← pyGetItem tool_input "guest_name"
    let ge := pyGetD tool_input "guest_email" ""
    let gp := pyGetD tool_input "guest_phone" ""
    let r ← env.create_booking pn ci co gn ge gp
    pure (.dict r)
  else if tool_name = "cancel_booking" then do
    let pn ← pyGetItem tool_input "property_name"
    let gn ← pyGetItem tool_input "guest_name"
    let ci ← pyGetItem tool_input "check_in_date"
    let r ← env.cancel_booking pn gn ci
    pure (.dict r)
  else
    pure (.dict [("error", .str ("Unknown tool: " ++ tool_name))])

/-- The final `return json.dumps(result) if isinstance(result, dict) else
str(result)`. -/
def serializeResult : ToolRet → String
  | .dict d => jsonDumps d
  | .str s => s

/-- `execute_tool(tool_name, tool_input)`: run the dispatch body; any
exception is caught and replaced by the dict
`{"error": f"Tool failed: {e}"}`; the result is serialized to a string. -/
def execute_tool (env : ToolEnv) (tool_name : String)
    (tool_input : ToolInput) : String :=
  match executeToolBody env tool_name tool_input with
  | .ok r => serializeResult r
  | .error e => jsonDumps [("error", .str ("Tool failed: " ++ e))]

/-! ## Calendar service (src/services/calendar.py, src/config.py) -/

/-- `CALENDAR_MAP` from src/config.py: the six property names and their
Google Calendar ids. -/
def CALENDAR_MAP : List (String × String) :=
  [("The Glasshouse",
    "d3e9120b63d2b7995beab066baca2774799e455fc6dea0449b9c691272695d45@group.calendar.google.com"),
   ("The River Cottage",
    "4772fc4ce0e1eb2299339b0d2f6795acb2cc6b131c2c3ade92dde98eac5c29c2@group.calendar.google.com"),
   ("The Olive Lodge",
    "60932cd3efb70be070b1739b4907f44a633a5f4b35ebb0582fbfcc5d13a5fb6d@group.calendar.google.com"),
   ("The Barn Loft",
    "62a9c034c27d264733e4e91f8798d15b400fbd8edbd031109ff47ad1b87ce39c@group.calendar.google.com"),
   ("The Potter\x27s Cabin",
    "8e8072d46292d0a7c0eb4e137d27f2ddd672d44b800eef410e59c985ffc85098@group.calendar.google.com"),
   ("The Stargazer\x27s Pod",
    "6a0a5f989f29ab88ff5d3e9e2010dd32505fe871a467760b73b25fbfe84b4eb5@group.calendar.google.com")]

/-- `_resolve_calendar`: look up the calendar id of a property name in
`CALENDAR_MAP` (`dict.get`, returning `None` on a miss). -/
def resolve_calendar (property_name : String) : Option String :=
  (List.find? (fun kv => kv.1 = property_name) CALENDAR_MAP).map Prod.snd

/-- The Google Calendar collaborator used by `check_availability`:
`service.events().list(calendarId, timeMin, timeMax, ...)`, returning the
`items` list (only emptiness matters here, so items are opaque strings).
Building the service or running the request may raise. -/
structure CalendarApi where
  listEvents : String → String → String → Except String (List String)

/-- `check_availability(property_name, check_in_date, check_out_date)`.
An unknown (or falsy-empty) calendar id short-circuits before any calendar
call; otherwise the events in `[check_in T00:00:00Z, check_out T23:59:59Z]`
are listed, and any exception becomes the try-again dict. -/
def check_availability (api : CalendarApi) (property_name check_in_date
    check_out_date : String) : JObj :=
  match resolve_calendar property_name with
  | none =>
      [("available", .bool false),
       ("message", .str ("Unknown property: " ++ property_name ++
         ". Please choose from the available properties."))]
  | some calendar_id =>
      if calendar_id = "" then
        [("available", .bool false),
         ("message", .str ("Unknown property: " ++ property_name ++
           ". Please choose from the available properties."))]
      else
        match api.listEvents calendar_id.trim
            (check_in_date ++ "T00:00:00Z")
            (check_out_date ++ "T23:59:59Z") with
        | .error _ =>
            [("available", .bool false),
             ("message", .str
               "Unable to check availability right now. Please try again.")]
        | .ok [] =>
            [("available", .bool true),
             ("property", .str property_name),
             ("check_in", .str check_in_date),
             ("check_out", .str check_out_date),
             ("message", .str ("Yes! " ++ property_name ++
               " is available from " ++ check_in_date ++ " to " ++
               check_out_date ++ "."))]
        | .ok (_ :: _) =>
            [("available", .bool false),
             ("property", .str property_name),
             ("check_in", .str check_in_date),
             ("check_out", .str check_out_date),
             ("message", .str ("Sorry, " ++ property_name ++
               " is already booked from " ++ check_in_date ++ " to " ++
               check_out_date ++
               ". Would you like to check other dates or explore our other properties?"))]

/-! ## Context window (src/services/context.py, src/config.py)

`save_to_context` inserts a row with a server-side timestamp into the
`minimal_context` table, `load_context` selects a user's rows ordered by
timestamp ascending, and `trim_context` calls the Supabase RPC
`trim_minimal_context`.  Timestamps are monotone per user, so one user's
window is a list kept oldest-first and an append goes at the end. -/

/-- `CONTEXT_MESSAGE_LIMIT` from src/config.py. -/
def CONTEXT_MESSAGE_LIMIT : Nat := 10

/-- A row of the `minimal_context` window as the agent consumes it:
role and text (the timestamp is the list position). -/
structure ContextEntry where
  role : String
  text : String
deriving DecidableEq, Repr

/-- Modelled from the spec: the body of the Supabase RPC
`trim_minimal_context` is not in the repository (src/services/context.py
only invokes it); the spec says trimming deletes oldest-first when the
window exceeds the configured limit N.  Keep the last
`CONTEXT_MESSAGE_LIMIT` entries. -/
def trimWindow (w : List ContextEntry) : List ContextEntry :=
  w.drop (w.length - CONTEXT_MESSAGE_LIMIT)

/-- An operation on one user's context window: `save_to_context` (append)
or `trim_context` (trim). -/
inductive CtxOp where
  | append (e : ContextEntry)
  | trim
deriving DecidableEq, Repr

/-- Apply one operation to a window. -/
def applyCtxOp (w : List ContextEntry) : CtxOp → List ContextEntry
  | .append e => w ++ [e]
  | .trim => trimWindow w

/-- Run a sequence of operations on an initially empty window. -/
def runCtxOps (ops : List CtxOp) : List ContextEntry :=
  ops.foldl applyCtxOp []

/-- The full append history of a sequence of operations: every appended
entry, in order. -/
def appendHistory (ops : List CtxOp) : List ContextEntry :=
  ops.filterMap fun o =>
    match o with
    | .append e => some e
    | .trim => none

/-- `load_context(user_id)`: return the user's current window rows ordered
by timestamp ascending, i.e. oldest-first — the window list itself. -/
def load_context (w : List ContextEntry) : List ContextEntry := w

/-- `format_context_for_prompt(messages)`: the fixed placeholder on an
empty list, else one `"<role>: <text>"` line per row, newline-joined. -/
def format_context_for_prompt (messages : List ContextEntry) : String :=
  if messages = [] then "(No previous conversation)"
  else String.intercalate "\n"
    (messages.map fun m => m.role ++ ": " ++ m.text)

/-! ## Chunking (src/ingestion/ingest.py) -/

/-- `CHUNK_SIZE` from src/ingestion/ingest.py. -/
def CHUNK_SIZE : Nat := 250

/-- `CHUNK_OVERLAP` from src/ingestion/ingest.py. -/
def CHUNK_OVERLAP : Nat := 30

/-- The `while start < len(text)` loop of `chunk_text`, on the character
list: emit `text[start : start + chunk_size]` and advance `start` by
`step = chunk_size - overlap`.  The first argument after `step` is an
iteration bound making the recursion structural: since `start` grows by
`step ≥ 1` per iteration, `t.length` iterations always suffice
(`chunkLoop_eq_range` below proves the bound is never hit).  With
`step = 0` the Python loop never terminates; the model returns `[]` there
(the claims assume `overlap < chunk_size`, which makes `step` positive). -/
def chunkLoop (t : List Char) (chunk_size step : Nat) :
    Nat → Nat → List (List Char)
  | 0, _ => []
  | fuel + 1, start =>
    if start < t.length then
      if 0 < step then
        (t.drop start).take chunk_size ::
          chunkLoop t chunk_size step fuel (start + step)
      else []
    else []

/-- `chunk_text(text, chunk_size, overlap)` on the character list: slice,
then `[c.strip() for c in chunks if c.strip()]` — strip every chunk and
keep the non-empty ones. -/
def chunkTextChars (t : List Char) (chunk_size overlap : Nat) :
    List (List Char) :=
  ((chunkLoop t chunk_size (chunk_size - overlap) t.length 0).map
    stripChars).filter (fun c => !c.isEmpty)

/-- `chunk_text` on strings. -/
def chunk_text (text : String) (chunk_size overlap : Nat) : List String :=
  (chunkTextChars text.toList chunk_size overlap).map List.asString

/-! ## Agent-loop lemmas -/

/-- Unfolding `runAgentLoop` at a response whose stop reason is
`end_turn`. -/
theorem runAgentLoop_end_turn (oracle : List Message → ModelResponse)
    (exec : String → List (String × String) → String)
    (ms : List Message) (rem : Nat)
    (h : (oracle ms).stop_reason = .end_turn) :
    runAgentLoop oracle exec (rem + 1) ms =
      (pyStrip (String.intercalate " " (textSegments (oracle ms).content)), 1) := by
  simp only [runAgentLoop, h]

/-- Unfolding `runAgentLoop` at a response whose stop reason is
`tool_use`: the assistant blocks and a single tool-results message are
appended, and the loop recurses on the smaller budget. -/
theorem runAgentLoop_tool_use (oracle : List Message → ModelResponse)
    (exec : String → List (String × String) → String)
    (ms : List Message) (rem : Nat)
    (h : (oracle ms).stop_reason = .tool_use) :
    runAgentLoop oracle exec (rem + 1) ms =
      ((runAgentLoop oracle exec rem (ms ++
          [⟨"assistant", .blocks (oracle ms).content⟩,
           ⟨"user", .results (collectToolResults exec (oracle ms).content)⟩])).1,
       (runAgentLoop oracle exec rem (ms ++
          [⟨"assistant", .blocks (oracle ms).content⟩,
           ⟨"user", .results (collectToolResults exec (oracle ms).content)⟩])).2
         + 1) := by
  simp only [runAgentLoop, h]

/-- Unfolding `runAgentLoop` at a response with any other stop reason. -/
theorem runAgentLoop_other (oracle : List Message → ModelResponse)
    (exec : String → List (String × String) → String)
    (ms : List Message) (rem : Nat) (s : String)
    (h : (oracle ms).stop_reason = .other s) :
    runAgentLoop oracle exec (rem + 1) ms = (FALLBACK, 1) := by
  simp only [runAgentLoop, h]

/-- The loop makes at most `rem` model calls. -/
theorem runAgentLoop_calls_le (oracle : List Message → ModelResponse)
    (exec : String → List (String × String) → String) :
    ∀ rem ms, (runAgentLoop oracle exec rem ms).2 ≤ rem := by
  intro rem
  induction rem with
  | zero => intro ms; simp [runAgentLoop]
  | succ n ih =>
    intro ms
    cases h : (oracle ms).stop_reason with
    | end_turn => rw [runAgentLoop_end_turn oracle exec ms n h]; omega
    | tool_use =>
      rw [runAgentLoop_tool_use oracle exec ms n h]
      have := ih (ms ++
        [⟨"assistant", .blocks (oracle ms).content⟩,
         ⟨"user", .results (collectToolResults exec (oracle ms).content)⟩])
      omega
    | other s => rw [runAgentLoop_other oracle exec ms n s h]; omega

/-- Against an oracle that always requests tool use, the loop exhausts its
budget: it returns the fallback after exactly `rem` model calls. -/
theorem runAgentLoop_always_tool_use (oracle : List Message → ModelResponse)
    (exec : String → List (String × String) → String)
    (h : ∀ ms, (oracle ms).stop_reason = .tool_use) :
    ∀ rem ms, runAgentLoop oracle exec rem ms = (FALLBACK, rem) := by
  intro rem
  induction rem with
  | zero => intro ms; rfl
  | succ n ih =>
    intro ms
    rw [runAgentLoop_tool_use oracle exec ms n (h ms), ih]

/-- C1: For every model oracle, `run_agent` makes at most 10 model calls;
an oracle that always answers with a tool-use response drives it to the
fixed apologetic fallback string after exactly 10 model calls; and an
oracle whose first response carries a stop reason other than
final-answer/tool-use yields that same fallback string after that single
model call. -/
theorem run_agent_iteration_budget (oracle : List Message → ModelResponse)
    (exec : String → List (String × String) → String) (um : String) :
    (run_agent oracle exec um).2 ≤ 10 ∧
    ((∀ ms, (oracle ms).stop_reason = .tool_use) →
      run_agent oracle exec um = (FALLBACK, 10)) ∧
    (∀ s, (oracle [⟨"user", .str um⟩]).stop_reason = .other s →
      run_agent oracle exec um = (FALLBACK, 1)) := by
  refine ⟨?_, ?_, ?_⟩
  · exact runAgentLoop_calls_le oracle exec 10 [⟨"user", .str um⟩]
  · intro h
    exact runAgentLoop_always_tool_use oracle exec h 10 [⟨"user", .str um⟩]
  · intro s h
    exact runAgentLoop_other oracle exec [⟨"user", .str um⟩] 9 s h

/-- Witness for C1 at concrete oracles: the always-tool-use oracle gives
the fallback after 10 calls, and an oracle stopping with `max_tokens`
first gives the fallback after 1 call. -/
theorem run_agent_iteration_budget_witness :
    run_agent (fun _ => ⟨StopReason.tool_use, []⟩) (fun _ _ => "") "hi" =
      (FALLBACK, 10) ∧
    run_agent (fun _ => ⟨StopReason.other "max_tokens", []⟩) (fun _ _ => "")
      "hi" = (FALLBACK, 1) := by
  constructor
  · exact (run_agent_iteration_budget (fun _ => ⟨StopReason.tool_use, []⟩)
      (fun _ _ => "") "hi").2.1 (fun _ => rfl)
  · exact (run_agent_iteration_budget
      (fun _ => ⟨StopReason.other "max_tokens", []⟩)
      (fun _ _ => "") "hi").2.2 "max_tokens" rfl

/-- C2: In any iteration whose model response requests tool use, the
requested tools are executed synchronously in content order — the
tool-result list is exactly the map of the executor over the requested
`ToolCall`s, so there is exactly one `ToolResult` per `ToolCall`, its
`tool_use_id` is the id of the `tool_use` block that produced it — and all
results are appended as one single new message before the next model
call. -/
theorem tool_results_correlated (oracle : List Message → ModelResponse)
    (exec : String → List (String × String) → String) :
    (∀ content, collectToolResults exec content =
      (toolCalls content).map fun tc => ⟨tc.id, exec tc.name tc.input⟩) ∧
    (∀ ms rem, (oracle ms).stop_reason = .tool_use →
      runAgentLoop oracle exec (rem + 1) ms =
        ((runAgentLoop oracle exec rem (ms ++
            [⟨"assistant", .blocks (oracle ms).content⟩,
             ⟨"user", .results (collectToolResults exec (oracle ms).content)⟩])).1,
         (runAgentLoop oracle exec rem (ms ++
            [⟨"assistant", .blocks (oracle ms).content⟩,
             ⟨"user", .results (collectToolResults exec (oracle ms).content)⟩])).2
           + 1)) := by
  constructor
  · intro content
    induction content with
    | nil => rfl
    | cons b rest ih =>
      cases b with
      | text t => simpa [collectToolResults, toolCalls, List.filterMap_cons]
          using ih
      | tool_use i n inp =>
        simpa [collectToolResults, toolCalls, List.filterMap_cons] using ih
  · intro ms rem h
    exact runAgentLoop_tool_use oracle exec ms rem h

/-- Witness for C2 at a concrete response holding two tool-use blocks
around a text block: ids are echoed in order, and the single-iteration
loop appends them as one message. -/
theorem tool_results_correlated_witness :
    collectToolResults (fun n _ => "ran " ++ n)
      [ContentBlock.tool_use "id1" "foo" [], ContentBlock.text "x",
       ContentBlock.tool_use "id2" "bar" []] =
      [⟨"id1", "ran foo"⟩, ⟨"id2", "ran bar"⟩] ∧
    runAgentLoop
      (fun _ => ⟨StopReason.tool_use, [ContentBlock.tool_use "id1" "foo" []]⟩)
      (fun n _ => "ran " ++ n) 1 [] = (FALLBACK, 1) := by
  constructor
  · rw [(tool_results_correlated (fun _ => ⟨StopReason.tool_use, []⟩)
      (fun n _ => "ran " ++ n)).1
      [ContentBlock.tool_use "id1" "foo" [], ContentBlock.text "x",
       ContentBlock.tool_use "id2" "bar" []]]
    rfl
  · rw [(tool_results_correlated
      (fun _ => ⟨StopReason.tool_use, [ContentBlock.tool_use "id1" "foo" []]⟩)
      (fun n _ => "ran " ++ n)).2 [] 0 rfl]
    rfl

/-- C3: When the first model response signals a final answer (`end_turn`),
`run_agent` returns the textual segments of that response joined by single
spaces and trimmed of surrounding whitespace, after that one model call;
in particular text segments `["Hello", "there"]` yield `"Hello there"`. -/
theorem final_answer_concatenation (oracle : List Message → ModelResponse)
    (exec : String → List (String × String) → String) (um : String)
    (h : (oracle [⟨"user", .str um⟩]).stop_reason = .end_turn) :
    run_agent oracle exec um =
      (pyStrip (String.intercalate " "
        (textSegments (oracle [⟨"user", .str um⟩]).content)), 1) ∧
    ((oracle [⟨"user", .str um⟩]).content =
        [.text "Hello", .text "there"] →
      (run_agent oracle exec um).1 = "Hello there") := by
  have step := runAgentLoop_end_turn oracle exec [⟨"user", .str um⟩] 9 h
  refine ⟨step, fun hc => ?_⟩
  rw [show (run_agent oracle exec um).1 =
      (runAgentLoop oracle exec 10 [⟨"user", .str um⟩]).1 from rfl,
    step, hc]
  decide

/-- Witness for C3: the stub oracle answering immediately with
`end_turn` and segments `["Hello", "there"]` makes `run_agent` return
`"Hello there"` after one model call. -/
theorem final_answer_concatenation_witness :
    run_agent
      (fun _ => ⟨StopReason.end_turn,
        [ContentBlock.text "Hello", ContentBlock.text "there"]⟩)
      (fun _ _ => "") "hi" = ("Hello there", 1) := by
  have h := (final_answer_concatenation
    (fun _ => ⟨StopReason.end_turn,
      [ContentBlock.text "Hello", ContentBlock.text "there"]⟩)
    (fun _ _ => "") "hi" rfl).1
  rw [h]
  decide

/-! ## Tool-registry theorems -/

/-- `bind` on a successful `Except` computation. -/
theorem exceptBind_ok {ε α β : Type} (a : α) (f : α → Except ε β) :
    (Except.ok a >>= f) = f a := rfl

/-- `bind` on a failed `Except` computation. -/
theorem exceptBind_error {ε α β : Type} (e : ε) (f : α → Except ε β) :
    ((Except.error e : Except ε α) >>= f) = Except.error e := rfl

/-- `map` on a successful `Except` computation. -/
theorem exceptMap_ok {ε α β : Type} (a : α) (f : α → β) :
    (f <$> (Except.ok a : Except ε α)) = Except.ok (f a) := rfl

/-- `map` on a failed `Except` computation. -/
theorem exceptMap_error {ε α β : Type} (e : ε) (f : α → β) :
    (f <$> (Except.error e : Except ε α)) = Except.error e := rfl

/-- `pure` on `Except` is `Except.ok`. -/
theorem exceptPure {ε α : Type} (a : α) :
    (pure a : Except ε α) = Except.ok a := rfl

/-- A sample environment whose capabilities all succeed, used to
instantiate theorems at concrete inputs. -/
def env0 : ToolEnv where
  search_knowledge_base := fun _ => .ok "kb"
  check_availability := fun _ _ _ => .ok [("available", .bool true)]
  create_booking := fun pn _ _ gn _ _ =>
    .ok [("success", .bool true), ("guest_name", .str gn),
         ("property", .str pn)]
  cancel_booking := fun _ _ _ => .ok [("success", .bool true)]

/-- A sample environment whose knowledge-base capability raises. -/
def envBoom : ToolEnv where
  search_knowledge_base := fun _ => .error "boom"
  check_availability := fun _ _ _ => .error "boom"
  create_booking := fun _ _ _ _ _ _ => .error "boom"
  cancel_booking := fun _ _ _ => .error "boom"

/-- C4: `execute_tool` always returns a string (it is total): whenever the
dispatch body raises — a required-field lookup or the backing capability —
the exception is caught and serialized as
`{"error": "Tool failed: <description>"}`; a dict result is serialized
with `json.dumps`; a string result is returned as the string itself.  The
last two conjuncts exhibit the two exception sources on
`search_knowledge_base`: a missing required field (`KeyError`) and a
raising backing call. -/
theorem execute_tool_error_policy (env : ToolEnv) (tool_name : String)
    (tool_input : ToolInput) :
    (∀ e, executeToolBody env tool_name tool_input = .error e →
      execute_tool env tool_name tool_input =
        jsonDumps [("error", .str ("Tool failed: " ++ e))]) ∧
    (∀ d, executeToolBody env tool_name tool_input = .ok (.dict d) →
      execute_tool env tool_name tool_input = jsonDumps d) ∧
    (∀ s, executeToolBody env tool_name tool_input = .ok (.str s) →
      execute_tool env tool_name tool_input = s) ∧
    (lookupField tool_input "query" = none →
      execute_tool env "search_knowledge_base" tool_input =
        jsonDumps [("error", .str "Tool failed: \x27query\x27")]) ∧
    (∀ q e, lookupField tool_input "query" = some q →
      env.search_knowledge_base q = .error e →
      execute_tool env "search_knowledge_base" tool_input =
        jsonDumps [("error", .str ("Tool failed: " ++ e))]) := by
  refine ⟨fun e h => ?_, fun d h => ?_, fun s h => ?_, fun h => ?_,
    fun q e hq he => ?_⟩
  · simp [execute_tool, h]
  · simp [execute_tool, h, serializeResult]
  · simp [execute_tool, h, serializeResult]
  · simp [execute_tool, executeToolBody, pyGetItem, h, exceptBind_error]
  · simp [execute_tool, executeToolBody, pyGetItem, hq, he, exceptBind_ok,
      exceptMap_error]

/-- Witness for C4: with no arguments the `query` lookup raises
`KeyError('query')` and the payload records it; with a raising backing
capability the payload records its message. -/
theorem execute_tool_error_policy_witness :
    execute_tool env0 "search_knowledge_base" [] =
      "\x7b\"error\": \"Tool failed: \x27query\x27\"\x7d" ∧
    execute_tool envBoom "search_knowledge_base" [("query", "hi")] =
      "\x7b\"error\": \"Tool failed: boom\"\x7d" := by
  constructor
  · rw [(execute_tool_error_policy env0 "search_knowledge_base"
      []).2.2.2.1 rfl]
    decide
  · rw [(execute_tool_error_policy envBoom "search_knowledge_base"
      [("query", "hi")]).2.2.2.2 "hi" "boom" rfl rfl]
    decide

/-- C5: For every tool name outside the registered set, `execute_tool`
returns the serialized dict `{"error": "Unknown tool: <name>"}`, and the
result does not depend on the backing capabilities (no capability is
invoked). -/
theorem unknown_tool_payload (env : ToolEnv) (tool_name : String)
    (tool_input : ToolInput)
    (h : tool_name ∉ ["search_knowledge_base", "check_availability",
      "create_booking", "cancel_booking"]) :
    execute_tool env tool_name tool_input =
      jsonDumps [("error", .str ("Unknown tool: " ++ tool_name))] ∧
    (∀ env' : ToolEnv, execute_tool env' tool_name tool_input =
      execute_tool env tool_name tool_input) := by
  simp only [List.mem_cons, List.not_mem_nil, or_false, not_or] at h
  obtain ⟨h1, h2, h3, h4⟩ := h
  have hbody : ∀ env' : ToolEnv,
      executeToolBody env' tool_name tool_input =
        .ok (.dict [("error", .str ("Unknown tool: " ++ tool_name))]) := by
    intro env'
    simp [executeToolBody, h1, h2, h3, h4, exceptPure]
  constructor
  · simp [execute_tool, hbody env, serializeResult]
  · intro env'
    simp [execute_tool, hbody env, hbody env']

/-- Witness for C5: the unregistered name `"foo"` yields exactly the
string `{"error": "Unknown tool: foo"}`, identically under the succeeding
and the raising environment. -/
theorem unknown_tool_payload_witness :
    execute_tool env0 "foo" [] = "\x7b\"error\": \"Unknown tool: foo\"\x7d" ∧
    execute_tool envBoom "foo" [] = execute_tool env0 "foo" [] := by
  constructor
  · rw [(unknown_tool_payload env0 "foo" [] (by decide)).1]
    decide
  · exact (unknown_tool_payload env0 "foo" [] (by decide)).2 envBoom

/-- C9: When the arguments carry `property_name`, `check_in_date`,
`check_out_date` and `guest_name` but omit `guest_email`, the
`create_booking` dispatch does not raise on the missing field: the body is
exactly the backing booking call with `guest_email = ""` (so when that
call succeeds the result is its serialized dict, not a "Tool failed"
payload) — even though `guest_email` is in the schema's `required` list. -/
theorem create_booking_missing_email (env : ToolEnv)
    (tool_input : ToolInput) (pn ci co gn : String)
    (h1 : lookupField tool_input "property_name" = some pn)
    (h2 : lookupField tool_input "check_in_date" = some ci)
    (h3 : lookupField tool_input "check_out_date" = some co)
    (h4 : lookupField tool_input "guest_name" = some gn)
    (h5 : lookupField tool_input "guest_email" = none) :
    executeToolBody env "create_booking" tool_input =
      (env.create_booking pn ci co gn ""
        (pyGetD tool_input "guest_phone" "")).map .dict ∧
    (∀ d, env.create_booking pn ci co gn ""
        (pyGetD tool_input "guest_phone" "") = .ok d →
      execute_tool env "create_booking" tool_input = jsonDumps d) ∧
    (∃ sch ∈ TOOL_SCHEMAS, sch.name = "create_booking" ∧
      "guest_email" ∈ sch.required) := by
  have hbody : executeToolBody env "create_booking" tool_input =
      (env.create_booking pn ci co gn ""
        (pyGetD tool_input "guest_phone" "")).map .dict := by
    simp only [executeToolBody, pyGetItem, pyGetD, h1, h2, h3, h4, h5,
      reduceIte, exceptBind_ok]
    cases hc : env.create_booking pn ci co gn ""
        ((lookupField tool_input "guest_phone").getD "") with
    | error err => simp [hc, exceptMap_error, Except.map]
    | ok v => simp [hc, exceptMap_ok, Except.map]
  refine ⟨hbody, fun d hd => ?_, ?_⟩
  · simp [execute_tool, hbody, hd, Except.map, serializeResult]
  · exact ⟨⟨"create_booking",
      ["property_name", "check_in_date", "check_out_date", "guest_name",
       "guest_email"]⟩, by decide, rfl, by decide⟩

/-- Witness for C9: a concrete argument mapping without `guest_email`
books successfully under `env0` and serializes the booking dict — no
"Tool failed" payload. -/
theorem create_booking_missing_email_witness :
    execute_tool env0 "create_booking"
      [("property_name", "The Glasshouse"),
       ("check_in_date", "2025-12-04"),
       ("check_out_date", "2025-12-07"),
       ("guest_name", "Ana Cruz")] =
    "\x7b\"success\": true, \"guest_name\": \"Ana Cruz\", \"property\": \"The Glasshouse\"\x7d" := by
  rw [(create_booking_missing_email env0
      [("property_name", "The Glasshouse"),
       ("check_in_date", "2025-12-04"),
       ("check_out_date", "2025-12-07"),
       ("guest_name", "Ana Cruz")]
      "The Glasshouse" "2025-12-04" "2025-12-07" "Ana Cruz"
      rfl rfl rfl rfl rfl).2.1
      [("success", .bool true), ("guest_name", .str "Ana Cruz"),
       ("property", .str "The Glasshouse")] rfl]
  decide

/-! ## Calendar theorems -/

/-- C8: For a property name outside the six-entry `CALENDAR_MAP`,
`check_availability` returns `available = false` with the explanatory
unknown-property message, and the result does not depend on the calendar
collaborator (no calendar call is attempted). -/
theorem check_availability_unknown_property (api : CalendarApi)
    (pn ci co : String) (h : pn ∉ CALENDAR_MAP.map Prod.fst) :
    check_availability api pn ci co =
      [("available", .bool false),
       ("message", .str ("Unknown property: " ++ pn ++
         ". Please choose from the available properties."))] ∧
    (∀ api' : CalendarApi, check_availability api' pn ci co =
      check_availability api pn ci co) := by
  have hr : resolve_calendar pn = none := by
    rw [resolve_calendar, Option.map_eq_none', List.find?_eq_none]
    intro kv hkv
    simp only [decide_eq_true_eq]
    intro he
    exact h (List.mem_map.mpr ⟨kv, hkv, he⟩)
  refine ⟨by simp [check_availability, hr], fun api' => by
    simp [check_availability, hr]⟩

/-- Witness for C8: the unknown name `"foo"` yields the unknown-property
dict, identically under a succeeding and a raising calendar
collaborator. -/
theorem check_availability_unknown_property_witness :
    check_availability ⟨fun _ _ _ => .ok []⟩ "foo" "2025-12-04"
        "2025-12-07" =
      [("available", .bool false),
       ("message", .str
         "Unknown property: foo. Please choose from the available properties.")] ∧
    check_availability ⟨fun _ _ _ => .error "down"⟩ "foo" "2025-12-04"
        "2025-12-07" =
      check_availability ⟨fun _ _ _ => .ok []⟩ "foo" "2025-12-04"
        "2025-12-07" := by
  constructor
  · rw [(check_availability_unknown_property ⟨fun _ _ _ => .ok []⟩ "foo"
      "2025-12-04" "2025-12-07" (by decide)).1]
    decide
  · exact (check_availability_unknown_property ⟨fun _ _ _ => .ok []⟩ "foo"
      "2025-12-04" "2025-12-07" (by decide)).2 ⟨fun _ _ _ => .error "down"⟩

/-! ## Context-window theorems -/

/-- The claim that the empty-window placeholder is the string
`"no previous conversation"` fails: `format_context_for_prompt` returns
the parenthesized, capitalized `"(No previous conversation)"`. -/
theorem format_context_placeholder_cex :
    format_context_for_prompt [] ≠ "no previous conversation" ∧
    format_context_for_prompt [] = "(No previous conversation)" := by
  constructor
  · decide
  · decide

/-- C7 (amended): `format_context_for_prompt` returns the fixed
placeholder `"(No previous conversation)"` on the empty sequence; on a
non-empty sequence it returns one `"<role>: <text>"` line per entry, in
input order, joined by newlines. -/
theorem format_context_for_prompt_spec :
    format_context_for_prompt [] = "(No previous conversation)" ∧
    ∀ messages : List ContextEntry, messages ≠ [] →
      format_context_for_prompt messages =
        String.intercalate "\n"
          (messages.map fun m => m.role ++ ": " ++ m.text) := by
  refine ⟨rfl, fun messages h => ?_⟩
  simp [format_context_for_prompt, h]

/-- Witness for C7: a two-entry window renders two lines in input
order. -/
theorem format_context_for_prompt_spec_witness :
    format_context_for_prompt [⟨"user", "hi"⟩, ⟨"assistant", "yo"⟩] =
      "user: hi\nassistant: yo" := by
  rw [format_context_for_prompt_spec.2 [⟨"user", "hi"⟩, ⟨"assistant", "yo"⟩]
    (by decide)]
  decide

/-- Appending to the right preserves being a suffix. -/
theorem suffix_append_right {α : Type} {l₁ l₂ : List α} (t : List α)
    (h : l₁ <:+ l₂) : l₁ ++ t <:+ l₂ ++ t := by
  obtain ⟨p, hp⟩ := h
  exact ⟨p, by rw [← hp, List.append_assoc]⟩

/-- The window reached from any start is a suffix of that start followed
by the appended entries: trimming only ever deletes from the front. -/
theorem foldl_applyCtxOp_suffix :
    ∀ (ops : List CtxOp) (w : List ContextEntry),
      ops.foldl applyCtxOp w <:+ w ++ appendHistory ops := by
  intro ops
  induction ops with
  | nil => intro w; simp [appendHistory]
  | cons op rest ih =>
    intro w
    cases op with
    | append e =>
      have := ih (w ++ [e])
      simpa [applyCtxOp, appendHistory] using this
    | trim =>
      have h1 := ih (trimWindow w)
      have h2 : trimWindow w ++ appendHistory rest <:+
          w ++ appendHistory rest :=
        suffix_append_right _ (List.drop_suffix _ _)
      have := h1.trans h2
      simpa [applyCtxOp, appendHistory] using this

/-- Right after a trim the window holds at most the configured limit. -/
theorem trimWindow_length_le (w : List ContextEntry) :
    (trimWindow w).length ≤ CONTEXT_MESSAGE_LIMIT := by
  simp only [trimWindow, List.length_drop]
  omega

/-- The claim that any interleaving of appends and trims leaves at most
N entries fails: eleven consecutive appends with no trailing trim leave
eleven entries in the window, one more than `CONTEXT_MESSAGE_LIMIT`. -/
theorem context_window_bound_cex :
    (load_context (runCtxOps (List.replicate 11
      (CtxOp.append ⟨"user", "hi"⟩)))).length = 11 ∧
    ¬ (load_context (runCtxOps (List.replicate 11
      (CtxOp.append ⟨"user", "hi"⟩)))).length ≤ CONTEXT_MESSAGE_LIMIT := by
  constructor
  · decide
  · decide

/-- C6 (amended): after any finite sequence of appends and trims, `load`
returns the entries oldest-first as a contiguous suffix of the full
append history (no re-ordering, no gaps other than the oldest entries
dropped by trims); and whenever the sequence ends with a trim — as in the
deployed flow, where every append is immediately followed by a trim —
`load` returns at most `CONTEXT_MESSAGE_LIMIT` (= 10) entries. -/
theorem context_window_invariant (ops : List CtxOp) :
    load_context (runCtxOps ops) <:+ appendHistory ops ∧
    (load_context (runCtxOps (ops ++ [CtxOp.trim]))).length ≤
      CONTEXT_MESSAGE_LIMIT := by
  constructor
  · have := foldl_applyCtxOp_suffix ops []
    simpa [runCtxOps, load_context] using this
  · rw [load_context, runCtxOps, List.foldl_append]
    exact trimWindow_length_le _

/-! ## Chunking theorems -/

/-- With a positive step and enough fuel (one unit per iteration, and
`start` grows by `step ≥ 1` each time), the slicing loop produces exactly
the slices at offsets `start, start + step, start + 2·step, …`: the
`while` loop of `chunk_text` terminates and visits starting offsets
spaced exactly `step` apart. -/
theorem chunkLoop_eq_range (t : List Char) (cs step : Nat)
    (hstep : 0 < step) :
    ∀ fuel start, t.length - start ≤ fuel →
      ∃ k, chunkLoop t cs step fuel start =
        (List.range k).map fun i => (t.drop (start + i * step)).take cs := by
  intro fuel
  induction fuel with
  | zero =>
    intro start _
    exact ⟨0, by simp [chunkLoop]⟩
  | succ n ih =>
    intro start hle
    by_cases hlt : start < t.length
    · obtain ⟨k, hk⟩ := ih (start + step) (by omega)
      refine ⟨k + 1, ?_⟩
      rw [chunkLoop]
      simp only [hlt, hstep, if_true, if_pos]
      rw [hk, List.range_succ_eq_map, List.map_cons, List.map_map]
      refine congrArg₂ List.cons (by simp) ?_
      refine List.map_congr_left fun i _ => ?_
      have harg : start + step + i * step = start + (i + 1) * step := by ring
      simp [Function.comp, Nat.succ_eq_add_one, harg]
    · exact ⟨0, by simp [chunkLoop, hlt]⟩

/-- Stripping whitespace from both ends yields a contiguous substring. -/
theorem stripChars_infix (l : List Char) : stripChars l <:+: l := by
  have h1 : l.dropWhile Char.isWhitespace <:+ l := List.dropWhile_suffix _
  have h2 : (l.dropWhile Char.isWhitespace).reverse.dropWhile
      Char.isWhitespace <:+ (l.dropWhile Char.isWhitespace).reverse :=
    List.dropWhile_suffix _
  have h3 : stripChars l <+: l.dropWhile Char.isWhitespace := by
    have h4 := List.reverse_prefix.mpr h2
    rw [List.reverse_reverse] at h4
    rw [stripChars]
    exact h4
  exact h3.isInfix.trans h1.isInfix

/-- A non-empty stripped chunk contains a non-whitespace character (its
last character, the head of the reversed tail-stripped list). -/
theorem stripChars_has_nonwhitespace (l : List Char)
    (h : stripChars l ≠ []) :
    ∃ c ∈ stripChars l, c.isWhitespace = false := by
  have hne : (l.dropWhile Char.isWhitespace).reverse.dropWhile
      Char.isWhitespace ≠ [] := by
    intro h0
    exact h (by rw [stripChars, h0, List.reverse_nil])
  refine ⟨((l.dropWhile Char.isWhitespace).reverse.dropWhile
      Char.isWhitespace).head hne, ?_, ?_⟩
  · rw [stripChars]
    exact List.mem_reverse.mpr (List.head_mem hne)
  · have := List.head_dropWhile_not Char.isWhitespace
      (l.dropWhile Char.isWhitespace).reverse hne
    simpa using this

/-- C10: For `0 < overlap < chunk_size`, `chunk_text` terminates with the
slices taken at starting offsets spaced exactly
`chunk_size - overlap` apart, and every returned chunk is a non-empty
stripped slice: at most `chunk_size` long, containing a non-whitespace
character, and a contiguous substring of the input. -/
theorem chunk_text_spec (text : String) (chunk_size overlap : Nat)
    (hov : 0 < overlap) (hlt : overlap < chunk_size) :
    (∃ k, chunkLoop text.toList chunk_size (chunk_size - overlap)
        text.toList.length 0 =
      (List.range k).map fun i =>
        (text.toList.drop (i * (chunk_size - overlap))).take chunk_size) ∧
    (∀ c ∈ chunkTextChars text.toList chunk_size overlap,
      c.length ≤ chunk_size ∧ c ≠ [] ∧
      (∃ ch ∈ c, ch.isWhitespace = false) ∧ c <:+: text.toList) ∧
    (∀ s ∈ chunk_text text chunk_size overlap,
      s.length ≤ chunk_size) := by
  have hstep : 0 < chunk_size - overlap := by omega
  have hmain := chunkLoop_eq_range text.toList chunk_size
    (chunk_size - overlap) hstep text.toList.length 0 (by omega)
  have hchunks : ∀ c ∈ chunkTextChars text.toList chunk_size overlap,
      c.length ≤ chunk_size ∧ c ≠ [] ∧
      (∃ ch ∈ c, ch.isWhitespace = false) ∧ c <:+: text.toList := by
    intro c hc
    simp only [chunkTextChars, List.mem_filter, List.mem_map] at hc
    obtain ⟨⟨raw, hraw, hcs⟩, hne⟩ := hc
    obtain ⟨k, hk⟩ := hmain
    rw [hk] at hraw
    simp only [List.mem_map, List.mem_range] at hraw
    obtain ⟨i, _, hrawi⟩ := hraw
    have hcne : c ≠ [] := by
      intro h0
      rw [h0] at hne
      simp at hne
    have hcinf : c <:+: raw := hcs ▸ stripChars_infix raw
    have hrawinf : raw <:+: text.toList := by
      rw [← hrawi]
      exact (List.take_prefix _ _).isInfix.trans
        (List.drop_suffix _ _).isInfix
    refine ⟨?_, hcne, ?_, hcinf.trans hrawinf⟩
    · have h1 : c.length ≤ raw.length := hcinf.length_le
      have h2 : raw.length ≤ chunk_size := by
        rw [← hrawi]
        exact List.length_take_le _ _
      omega
    · rw [← hcs]
      exact stripChars_has_nonwhitespace raw (hcs ▸ hcne)
  refine ⟨?_, hchunks, ?_⟩
  · obtain ⟨k, hk⟩ := hmain
    exact ⟨k, by simpa using hk⟩
  · intro s hs
    simp only [chunk_text, List.mem_map] at hs
    obtain ⟨c, hc, hsc⟩ := hs
    have := (hchunks c hc).1
    rw [← hsc]
    simpa [String.length, List.asString] using this

/-- Witness for C10 at `chunk_text "ab cd" 3 1` (step 2, offsets 0, 2,
4): the parameters satisfy `0 < overlap < chunk_size`, the chunks are
`["ab", "cd", "d"]`, and the bound from the theorem holds at the chunk
`"d"`. -/
theorem chunk_text_spec_witness :
    chunk_text "ab cd" 3 1 = ["ab", "cd", "d"] ∧
    ("d" : String).length ≤ 3 := by
  refine ⟨by decide, ?_⟩
  exact (chunk_text_spec "ab cd" 3 1 (by decide) (by decide)).2.2 "d"
    (by decide)

end VerdeValley
